import Mathlib

/- Verification of the Metadesk reference parser (metadesk.ts).

This file gives a shallow embedding of the tokenizer (`getToken`) and the
recursive-descent parser (`parse` and the `ParseContext` methods) of the
TypeScript implementation, modelling JavaScript strings as `List Char` and the
thrown loop-cap exception as an `Except` error value, together with theorems
settling the specification claims.  Token kinds and node flags are the numeric
bit values of the TypeScript enums. -/

namespace Metadesk

namespace TokenKind

def Invalid : Nat := 0

def Identifier : Nat := 1

def Numeric : Nat := 2

def StringLiteral : Nat := 4

def Symbol : Nat := 8

def Reserved : Nat := 16

def Comment : Nat := 32

def Whitespace : Nat := 64

def Newline : Nat := 128

def BrokenComment : Nat := 256

def BrokenStringLiteral : Nat := 512

def BadCharacter : Nat := 1024

end TokenKind

/-- In the source `AllTokens = ~0`; any value whose bitwise `and` with a token
kind gives back that kind works, since kinds occupy bits 0..10. -/
def AllTokens : Nat := 2047

def LabelKinds : Nat :=
  TokenKind.Identifier ||| TokenKind.Numeric ||| TokenKind.StringLiteral ||| TokenKind.Symbol

def WhitespaceLine : Nat := TokenKind.Whitespace ||| TokenKind.Comment

def WhitespaceAll : Nat := TokenKind.Whitespace ||| TokenKind.Newline ||| TokenKind.Comment

namespace NodeFlags

def HasParenLeft : Nat := 1

def HasParenRight : Nat := 2

def HasBracketLeft : Nat := 4

def HasBracketRight : Nat := 8

def HasBraceLeft : Nat := 16

def HasBraceRight : Nat := 32

def IsBeforeSemicolon : Nat := 64

def IsAfterSemicolon : Nat := 128

def IsBeforeComma : Nat := 256

def IsAfterComma : Nat := 512

def MaskSeparators : Nat := 960

end NodeFlags

structure Token where
  kind : Nat
  string : List Char
  rawString : List Char
  remaining : List Char
deriving DecidableEq, Repr

/-- The backtick character (delimiter of tick strings). -/
def backquoteChar : Char := '\x60'

def isSpaceChar (c : Char) : Bool :=
  c = ' ' || c = '\r' || c = '\t' || c = '\x0c' || c = '\x0b'

/-- Length of the longest prefix whose characters all satisfy `p`
(the `scan` helper of `getToken`). -/
def countWhile (p : Char → Bool) : List Char → Nat
  | [] => 0
  | c :: cs => if p c then countWhile p cs + 1 else 0

/-- JavaScript `hay.includes(needle)` (substring test). -/
def jsIncludes : List Char → List Char → Bool
  | hay, needle =>
    needle.isPrefixOf hay ||
      match hay with
      | [] => false
      | _ :: t => jsIncludes t needle

def charIsUnreservedSymbol (c : Char) : Bool :=
  jsIncludes "~!$%^&*-=+<.>/?|".toList [c]

def charIsReservedSymbol (c : Char) : Bool :=
  jsIncludes "\x7b\x7d()\\[]#,;:@".toList [c]

/-- The nested block-comment scan of `getToken`, applied to the characters
after the opening slash-star.  Returns the number of characters consumed and
the final comment depth (0 means the comment was closed). -/
def blockScan : Nat → List Char → Nat × Nat
  | 0, _ => (0, 0)
  | d + 1, [] => (0, d + 1)
  | d + 1, '*' :: '/' :: rest => let r := blockScan d rest; (2 + r.1, r.2)
  | d + 1, '/' :: '*' :: rest => let r := blockScan (d + 2) rest; (2 + r.1, r.2)
  | d + 1, _ :: rest => let r := blockScan (d + 1) rest; (1 + r.1, r.2)

/-- The single-delimited string scan of `getToken`, applied to the characters
after the opening delimiter.  Returns characters consumed and whether the
string was closed. -/
def singleScan (delim : Char) : List Char → Nat × Bool
  | [] => (0, false)
  | c :: rest =>
    if c = delim then (1, true)
    else if c = '\n' then (0, false)
    else if c = '\\' ∧ (rest.head? = some delim ∨ rest.head? = some '\\') then
      match rest with
      | [] => (1, false)
      | _ :: rest2 => let r := singleScan delim rest2; (2 + r.1, r.2)
    else
      let r := singleScan delim rest
      (1 + r.1, r.2)

/-- The triple-delimited string scan of `getToken`, applied to the characters
after the opening three delimiters; `conseq` counts consecutive delimiters
seen so far. -/
def tripleScan (delim : Char) : Nat → List Char → Nat × Bool
  | _, [] => (0, false)
  | conseq, c :: rest =>
    if c = delim then
      if conseq + 1 = 3 then (1, true)
      else let r := tripleScan delim (conseq + 1) rest; (1 + r.1, r.2)
    else if c = '\\' ∧ (rest.head? = some delim ∨ rest.head? = some '\\') then
      match rest with
      | [] => (1, false)
      | _ :: rest2 => let r := tripleScan delim 0 rest2; (2 + r.1, r.2)
    else
      let r := tripleScan delim 0 rest
      (1 + r.1, r.2)

def isIdentStart (c : Char) : Bool := c.isAlpha || c = '_'

def isIdentChar (c : Char) : Bool := c.isAlpha || c.isDigit || c = '_'

def isNumericBodyChar (c : Char) : Bool := c.isAlpha || c.isDigit || c = '.' || c = '_'

/-- Greedy match of the numeric-literal body `([eE][+-]|[a-zA-Z0-9._])*`. -/
def numericBody : List Char → Nat
  | [] => 0
  | [c] => if isNumericBodyChar c then 1 else 0
  | c :: d :: rest =>
    if (c = 'e' ∨ c = 'E') ∧ (d = '+' ∨ d = '-') then 2 + numericBody rest
    else if isNumericBodyChar c then 1 + numericBody (d :: rest)
    else 0

def headIsDigit (l : List Char) : Bool :=
  match l.head? with
  | some d => d.isDigit
  | none => false

/-- The tokenizer.  Given the remaining text, returns the next token
(`none` exactly on empty input).  `skip`/`len`/`chop` play the same role as in
the TypeScript code: the token's `string` is `s.slice(skip, len - chop)`, its
`rawString` is `s.slice(0, len)` and `remaining` is `s.slice(len)`. -/
def getToken (s : List Char) : Option Token :=
  match s with
  | [] => none
  | c :: rest =>
    let mk : Nat → Nat → Nat → Nat → Token := fun kind skip len chop =>
      ⟨kind, (s.take (len - chop)).drop skip, s.take len, s.drop len⟩
    some (
      if c = '\n' then mk TokenKind.Newline 0 1 0
      else if isSpaceChar c then mk TokenKind.Whitespace 0 (1 + countWhile isSpaceChar rest) 0
      else if c = '/' then
        match rest with
        | [] => mk TokenKind.Invalid 0 0 0
        | c1 :: rest1 =>
          if c1 = '/' then
            mk TokenKind.Comment 2 (2 + countWhile (fun x => !(x = '\n' || x = '\r')) rest1) 0
          else if c1 = '*' then
            let r := blockScan 1 rest1
            if r.2 = 0 then mk TokenKind.Comment 2 (2 + r.1) 2
            else mk TokenKind.BrokenComment 2 (2 + r.1) 0
          else mk TokenKind.Invalid 0 0 0
      else if c = '"' ∨ c = '\'' ∨ c = backquoteChar then
        let isTriplet : Bool :=
          match rest with
          | a :: b :: _ => a = c && b = c
          | _ => false
        if isTriplet then
          let r := tripleScan c 0 (rest.drop 2)
          if r.2 then mk TokenKind.StringLiteral 3 (3 + r.1) 3
          else mk TokenKind.BrokenStringLiteral 3 (3 + r.1) 0
        else
          let r := singleScan c rest
          if r.2 then mk TokenKind.StringLiteral 1 (1 + r.1) 1
          else mk TokenKind.BrokenStringLiteral 1 (1 + r.1) 0
      else if isIdentStart c then
        mk TokenKind.Identifier 0 (1 + countWhile isIdentChar rest) 0
      else if c.isDigit then
        mk TokenKind.Numeric 0 (1 + numericBody rest) 0
      else if c = '-' ∧ headIsDigit rest then
        mk TokenKind.Numeric 0 (2 + numericBody (rest.drop 1)) 0
      else if charIsUnreservedSymbol c then
        mk TokenKind.Symbol 0 (1 + countWhile charIsUnreservedSymbol rest) 0
      else if charIsReservedSymbol c then mk TokenKind.Reserved 0 1 0
      else mk TokenKind.BadCharacter 0 1 0)

end Metadesk

namespace Metadesk

inductive NodeKind where
  | File
  | Main
  | Tag
deriving DecidableEq, Repr

/-- The `Node` class.  Field order: kind, flags, string, rawString, offset,
comment, next, prev, parent, children, tags.  The constructor of the
TypeScript class initializes flags to `None`, comment to the empty string and
the three back-references to `undefined`. -/
inductive Node where
  | mk (kind : NodeKind) (flags : Nat) (string : List Char) (rawString : List Char)
      (offset : Nat) (comment : List Char)
      (next : Option Node) (prev : Option Node) (parent : Option Node)
      (children : List Node) (tags : List Node) : Node

def Node.kind : Node → NodeKind
  | .mk k _ _ _ _ _ _ _ _ _ _ => k

def Node.flags : Node → Nat
  | .mk _ f _ _ _ _ _ _ _ _ _ => f

def Node.string : Node → List Char
  | .mk _ _ s _ _ _ _ _ _ _ _ => s

def Node.rawString : Node → List Char
  | .mk _ _ _ r _ _ _ _ _ _ _ => r

def Node.offset : Node → Nat
  | .mk _ _ _ _ o _ _ _ _ _ _ => o

def Node.comment : Node → List Char
  | .mk _ _ _ _ _ c _ _ _ _ _ => c

def Node.next : Node → Option Node
  | .mk _ _ _ _ _ _ n _ _ _ _ => n

def Node.prev : Node → Option Node
  | .mk _ _ _ _ _ _ _ p _ _ _ => p

def Node.parent : Node → Option Node
  | .mk _ _ _ _ _ _ _ _ p _ _ => p

def Node.children : Node → List Node
  | .mk _ _ _ _ _ _ _ _ _ c _ => c

def Node.tags : Node → List Node
  | .mk _ _ _ _ _ _ _ _ _ _ t => t

/-- Replace the `flags` field (models `node.flags |= ...` assignments). -/
def Node.withFlags : Node → Nat → Node
  | .mk k _ s r o c n p q ch t, f => .mk k f s r o c n p q ch t

structure MdError where
  message : List Char
  offset : Nat
deriving DecidableEq, Repr

structure ParseContext where
  source : List Char
  remaining : List Char
  last : Option Token
  errors : List MdError
deriving DecidableEq, Repr

def ParseContext.offset (ctx : ParseContext) : Nat :=
  ctx.source.length - ctx.remaining.length

def ParseContext.check (ctx : ParseContext) (kind : Nat) (cond : Token → Bool) : Option Token :=
  match getToken ctx.remaining with
  | some t => if Nat.land t.kind kind ≠ 0 ∧ cond t then some t else none
  | none => none

def ParseContext.consume (ctx : ParseContext) (kind : Nat) (cond : Token → Bool) :
    Option Token × ParseContext :=
  match ctx.check kind cond with
  | some t => (some t, { ctx with remaining := t.remaining, last := some t })
  | none => (none, ctx)

def ParseContext.done (ctx : ParseContext) : Bool :=
  (ctx.check AllTokens fun _ => true).isNone

def ParseContext.pushError (ctx : ParseContext) (msg : List Char) (off : Nat) : ParseContext :=
  { ctx with errors := ctx.errors ++ [⟨msg, off⟩] }

/-- The two loop-failure modes.  `loopRanTooLong` models the exception thrown
by the `forever()` generator after 10000 iterations; `outOfFuel` is an artifact
of the embedding of the mutual recursion (the TypeScript recursion carries no
fuel) and is never hit when the fuel is large enough. -/
inductive Fail where
  | loopRanTooLong
  | outOfFuel
deriving DecidableEq, Repr

def FOREVER_CAP : Nat := 10000

def consumeAllAux (kind : Nat) (cond : Token → Bool) :
    Nat → ParseContext → List Token → Except Fail (List Token × ParseContext)
  | 0, _, _ => .error .loopRanTooLong
  | fuel + 1, ctx, acc =>
    match ctx.consume kind cond with
    | (some t, ctx') => consumeAllAux kind cond fuel ctx' (acc ++ [t])
    | (none, ctx') => .ok (acc, ctx')

def consumeAll (kind : Nat) (cond : Token → Bool) (ctx : ParseContext) :
    Except Fail (List Token × ParseContext) :=
  consumeAllAux kind cond FOREVER_CAP ctx []

def getLastComment (tokens : List Token) : Option Token :=
  tokens.foldl (fun acc t => if t.kind = TokenKind.Comment then some t else acc) none

def anyTok : Token → Bool := fun _ => true

def consumeWhitespaceLine (ctx : ParseContext) : Except Fail (Option Token × ParseContext) :=
  match consumeAll WhitespaceLine anyTok ctx with
  | .error e => .error e
  | .ok (tokens, ctx') => .ok (getLastComment tokens, ctx')

def consumeWhitespaceAll (ctx : ParseContext) : Except Fail (Option Token × ParseContext) :=
  match consumeAll WhitespaceAll anyTok ctx with
  | .error e => .error e
  | .ok (tokens, ctx') => .ok (getLastComment tokens, ctx')

def consumeWhitespaceNode (ctx : ParseContext) : Except Fail (Option Token × ParseContext) :=
  match consumeAll WhitespaceLine anyTok ctx with
  | .error e => .error e
  | .ok (ts1, ctx1) =>
    let (_, ctx2) := ctx1.consume TokenKind.Newline anyTok
    match consumeAll WhitespaceLine anyTok ctx2 with
    | .error e => .error e
    | .ok (ts2, ctx3) => .ok (getLastComment (ts1 ++ ts2), ctx3)

def isOpenerTok (t : Token) : Bool := jsIncludes "([\x7b".toList t.string

def isCloserTok (t : Token) : Bool := jsIncludes ")]\x7d".toList t.string

def isSeparatorTok (t : Token) : Bool := jsIncludes ",;".toList t.string

def isColonTok (t : Token) : Bool := t.string = [':']

def isAtTok (t : Token) : Bool := t.string = ['@']

def replaceAllChar (c : Char) (rep : List Char) : List Char → List Char
  | [] => []
  | x :: xs => (if x = c then rep else [x]) ++ replaceAllChar c rep xs

def sanitize (s : List Char) : List Char :=
  replaceAllChar '\t' "\\t".toList (replaceAllChar '\n' "\\n".toList s)

def unterminatedListMsg : List Char := "List was not terminated".toList

def expectedNodeMsg : List Char := "expected a node".toList

def tagParenMsg : List Char := "tag children can only be delimited using parentheses".toList

def labelErrMsg (s : List Char) : List Char :=
  "expected a valid node label, but got \"".toList ++ s ++ "\" instead".toList

def tagLabelErrMsg (s : List Char) : List Char :=
  "\"".toList ++ s ++ "\" is not a proper tag label".toList

def endOfFileStr : List Char := "end of file".toList

def undefinedStr : List Char := "<undefined>".toList

def mismatchMsg (o c : List Char) : List Char :=
  "\"".toList ++ o ++ "\" and \"".toList ++ c ++ "\" cannot be used together".toList

/-- The record of the mutually recursive parsing functions of `ParseContext`.
The TypeScript recursion is modelled with a fuel argument: `parserFns fuel`
gives all parser productions with recursion depth capped at `fuel`; every call
from one production to another decreases the fuel by one, and exhausted fuel
yields the embedding artifact `Fail.outOfFuel`.  The `Nat`-valued `loopFuel`
arguments of the loop functions model the 10000-iteration `forever()` cap of
the source, whose violation is the real `Fail.loopRanTooLong` exception. -/
structure ParserFns where
  pNode : Option Token → ParseContext → Except Fail (Option Node × ParseContext)
  pTagList : Option Token → ParseContext → Except Fail (List Node × ParseContext)
  pTagLoop : Nat → Option Token → List Node → ParseContext →
    Except Fail (List Node × ParseContext)
  pExList : ParseContext → Except Fail (Option (List Node) × Nat × ParseContext)
  pExChildren : ParseContext → Except Fail (List Node × ParseContext)
  pExLoop : Nat → Option Token → Nat → List Node → ParseContext →
    Except Fail (List Node × ParseContext)
  pImList : Option Token → ParseContext → Except Fail (List Node × ParseContext)
  pImLoop : Nat → Option Token → List Node → ParseContext →
    Except Fail (List Node × ParseContext)

def outOfFuelFns : ParserFns where
  pNode := fun _ _ => .error .outOfFuel
  pTagList := fun _ _ => .error .outOfFuel
  pTagLoop := fun _ _ _ _ => .error .outOfFuel
  pExList := fun _ => .error .outOfFuel
  pExChildren := fun _ => .error .outOfFuel
  pExLoop := fun _ _ _ _ _ => .error .outOfFuel
  pImList := fun _ _ => .error .outOfFuel
  pImLoop := fun _ _ _ _ => .error .outOfFuel

/-- The body of `ParseContext.parseNode`, with recursive calls through `ih`. -/
def pNodeStep (ih : ParserFns) (preComment : Option Token) (ctx0 : ParseContext) :
    Except Fail (Option Node × ParseContext) :=
  let startOffset := ctx0.offset
  match ih.pTagList preComment ctx0 with
  | .error e => .error e
  | .ok (tags, ctx1) =>
    match consumeWhitespaceAll ctx1 with
    | .error e => .error e
    | .ok (wsComment, ctx2) =>
      let commentToken := wsComment <|> preComment
      let comment := (commentToken.map Token.string).getD []
      match ctx2.check TokenKind.Reserved isOpenerTok with
      | some _ =>
        match ih.pExList ctx2 with
        | .error e => .error e
        | .ok (childrenOpt, flags, ctx3) =>
          .ok (some (Node.mk .Main flags []
            ((ctx3.source.drop startOffset).take (ctx3.offset - startOffset)) startOffset
            comment none none none (childrenOpt.getD []) tags), ctx3)
      | none =>
        match ctx2.consume LabelKinds anyTok with
        | (some label, ctx3) =>
          match ctx3.consume TokenKind.Reserved isColonTok with
          | (some _, ctx4) =>
            match consumeWhitespaceNode ctx4 with
            | .error e => .error e
            | .ok (cmt, ctx5) =>
              match ctx5.check TokenKind.Reserved isOpenerTok with
              | some _ =>
                match ih.pExList ctx5 with
                | .error e => .error e
                | .ok (childrenOpt, flags, ctx6) =>
                  .ok (some (Node.mk .Main flags label.string
                    ((ctx6.source.drop startOffset).take (ctx6.offset - startOffset)) startOffset
                    comment none none none (childrenOpt.getD []) tags), ctx6)
              | none =>
                match ih.pImList cmt ctx5 with
                | .error e => .error e
                | .ok (children, ctx6) =>
                  .ok (some (Node.mk .Main 0 label.string
                    ((ctx6.source.drop startOffset).take (ctx6.offset - startOffset)) startOffset
                    comment none none none children tags), ctx6)
          | (none, ctx4) =>
            .ok (some (Node.mk .Main 0 label.string
              ((ctx4.source.drop startOffset).take (ctx4.offset - startOffset)) startOffset
              comment none none none [] tags), ctx4)
        | (none, ctx3) =>
          let got := ((ctx3.check AllTokens anyTok).map Token.string).getD endOfFileStr
          .ok (none, ctx3.pushError (labelErrMsg (sanitize got)) ctx3.offset)

/-- The body of `ParseContext.parseTagList`. -/
def pTagListStep (ih : ParserFns) (preComment : Option Token) (ctx : ParseContext) :
    Except Fail (List Node × ParseContext) :=
ih.pTagLoop FOREVER_CAP preComment [] ctx

/-- The body of one `forever()` iteration of `parseTagList`. -/
def pTagLoopStep (ih : ParserFns) (loopFuel : Nat) (commentToken : Option Token) (acc : List Node) (ctx0 : ParseContext) :
    Except Fail (List Node × ParseContext) :=
  if loopFuel = 0 then .error .loopRanTooLong
  else
    match ctx0.consume TokenKind.Reserved isAtTok with
    | (none, ctx1) => .ok (acc, ctx1)
    | (some _, ctx1) =>
      match ctx1.consume LabelKinds anyTok with
      | (none, ctx2) =>
        let lastRaw := (ctx2.last.map Token.rawString).getD undefinedStr
        .ok (acc, ctx2.pushError (tagLabelErrMsg (sanitize lastRaw)) ctx2.offset)
      | (some label, ctx2) =>
        let tagOffset := ctx2.offset
        match ih.pExList ctx2 with
        | .error e => .error e
        | .ok (tagChildrenOpt, tagFlags, ctx3) =>
          let parenthesized :=
            Nat.land tagFlags NodeFlags.HasParenLeft ≠ 0 ∧
            Nat.land tagFlags NodeFlags.HasParenRight ≠ 0
          let ctx4 := if tagChildrenOpt.isSome ∧ ¬parenthesized then
              ctx3.pushError tagParenMsg tagOffset
            else ctx3
          let tagNode := Node.mk .Tag tagFlags label.string label.rawString tagOffset
            ((commentToken.map Token.string).getD []) none none none
            (tagChildrenOpt.getD []) []
          match consumeWhitespaceAll ctx4 with
          | .error e => .error e
          | .ok (newComment, ctx5) =>
            ih.pTagLoop (loopFuel - 1) newComment (acc ++ [tagNode]) ctx5

/-- The body of `ParseContext.parseExplicitList`. -/
def pExListStep (ih : ParserFns) (ctx0 : ParseContext) :
    Except Fail (Option (List Node) × Nat × ParseContext) :=
  let openerOffset := ctx0.offset
  match ctx0.consume TokenKind.Reserved isOpenerTok with
  | (none, ctx1) => .ok (none, 0, ctx1)
  | (some opener, ctx1) =>
    let flagsL : Nat :=
      if opener.string = ['('] then NodeFlags.HasParenLeft
      else if opener.string = ['['] then NodeFlags.HasBracketLeft
      else if opener.string = ['\x7b'] then NodeFlags.HasBraceLeft
      else 0
    match ih.pExChildren ctx1 with
    | .error e => .error e
    | .ok (children, ctx2) =>
      match ctx2.consume TokenKind.Reserved isCloserTok with
      | (none, ctx3) => .ok (none, 0, ctx3.pushError unterminatedListMsg openerOffset)
      | (some closer, ctx3) =>
        let isBraced := opener.string = ['\x7b'] ∧ closer.string = ['\x7d']
        let isBracketed :=
          jsIncludes "([".toList opener.string ∧ jsIncludes ")]".toList closer.string
        let ctx4 := if ¬(isBraced ∨ isBracketed) then
            ctx3.pushError (mismatchMsg opener.string closer.string) openerOffset
          else ctx3
        let flagsR : Nat :=
          if closer.string = [')'] then NodeFlags.HasParenRight
          else if closer.string = [']'] then NodeFlags.HasBracketRight
          else if closer.string = ['\x7d'] then NodeFlags.HasBraceRight
          else 0
        .ok (some children, flagsL ||| flagsR, ctx4)

/-- The body of `ParseContext.parseExplicitChildren`. -/
def pExChildrenStep (ih : ParserFns) (ctx0 : ParseContext) :
    Except Fail (List Node × ParseContext) :=
  match consumeWhitespaceAll ctx0 with
  | .error e => .error e
  | .ok (commentToken, ctx1) =>
    if (ctx1.check TokenKind.Reserved isCloserTok).isSome ∨ ctx1.done then .ok ([], ctx1)
    else ih.pExLoop FOREVER_CAP commentToken 0 [] ctx1

/-- The body of one `forever()` iteration of `parseExplicitChildren`. -/
def pExLoopStep (ih : ParserFns) (loopFuel : Nat) (commentToken : Option Token) (nextNodeFlags : Nat) (acc : List Node) (ctx0 : ParseContext) :
    Except Fail (List Node × ParseContext) :=
  if loopFuel = 0 then .error .loopRanTooLong
  else
    match ih.pNode commentToken ctx0 with
    | .error e => .error e
    | .ok (none, ctx1) => .ok (acc, ctx1)
    | .ok (some node0, ctx1) =>
      let node1 := node0.withFlags (Nat.lor node0.flags nextNodeFlags)
      match consumeWhitespaceAll ctx1 with
      | .error e => .error e
      | .ok (_, ctx2) =>
        let sepAndCtx := ctx2.consume TokenKind.Reserved isSeparatorTok
        let nodeAndFlags :=
          match sepAndCtx.1 with
          | some s =>
            if s.string = [','] then
              (node1.withFlags (node1.flags ||| NodeFlags.IsBeforeComma),
               NodeFlags.IsAfterComma)
            else if s.string = [';'] then
              (node1.withFlags (node1.flags ||| NodeFlags.IsBeforeSemicolon),
               NodeFlags.IsAfterSemicolon)
            else (node1, 0)
          | none => (node1, 0)
        match consumeWhitespaceAll sepAndCtx.2 with
        | .error e => .error e
        | .ok (newComment, ctx4) =>
          if (ctx4.check TokenKind.Reserved isCloserTok).isSome ∨ ctx4.done then
            .ok (acc ++ [nodeAndFlags.1], ctx4)
          else
            ih.pExLoop (loopFuel - 1) newComment nodeAndFlags.2
              (acc ++ [nodeAndFlags.1]) ctx4

/-- The body of `ParseContext.parseImplicitList`. -/
def pImListStep (ih : ParserFns) (preComment : Option Token) (ctx : ParseContext) :
    Except Fail (List Node × ParseContext) :=
ih.pImLoop FOREVER_CAP preComment [] ctx

/-- The body of one `forever()` iteration of `parseImplicitList`. -/
def pImLoopStep (ih : ParserFns) (loopFuel : Nat) (commentToken : Option Token) (acc : List Node) (ctx0 : ParseContext) :
    Except Fail (List Node × ParseContext) :=
  if loopFuel = 0 then .error .loopRanTooLong
  else
    match ih.pNode commentToken ctx0 with
    | .error e => .error e
    | .ok (none, ctx1) => .ok (acc, ctx1.pushError expectedNodeMsg ctx1.offset)
    | .ok (some node, ctx1) =>
      match consumeWhitespaceLine ctx1 with
      | .error e => .error e
      | .ok (newComment, ctx2) =>
        if (ctx2.check TokenKind.Reserved isSeparatorTok).isSome ∨
            (ctx2.check TokenKind.Newline anyTok).isSome then
          let consumedAndCtx := ctx2.consume AllTokens anyTok
          .ok (acc ++ [node], consumedAndCtx.2)
        else
          ih.pImLoop (loopFuel - 1) newComment (acc ++ [node]) ctx2

/-- One step of the parser recursion: ties the bodies together. -/
def stepFns (ih : ParserFns) : ParserFns where
  pNode := pNodeStep ih
  pTagList := pTagListStep ih
  pTagLoop := pTagLoopStep ih
  pExList := pExListStep ih
  pExChildren := pExChildrenStep ih
  pExLoop := pExLoopStep ih
  pImList := pImListStep ih
  pImLoop := pImLoopStep ih

/-- `parserFns fuel`: the parser productions with recursion depth `fuel`. -/
def parserFns (fuel : Nat) : ParserFns :=
  Nat.rec (motive := fun _ => ParserFns) outOfFuelFns (fun _ ih => stepFns ih) fuel

/-- `ParseContext.parseNode`. -/
def parseNode (fuel : Nat) (preComment : Option Token) (ctx : ParseContext) :
    Except Fail (Option Node × ParseContext) :=
  (parserFns fuel).pNode preComment ctx

/-- `ParseContext.parseTagList`. -/
def parseTagList (fuel : Nat) (preComment : Option Token) (ctx : ParseContext) :
    Except Fail (List Node × ParseContext) :=
  (parserFns fuel).pTagList preComment ctx

/-- The `forever()` loop of `ParseContext.parseTagList`. -/
def parseTagListLoop (fuel loopFuel : Nat) (commentToken : Option Token) (acc : List Node)
    (ctx : ParseContext) : Except Fail (List Node × ParseContext) :=
  (parserFns fuel).pTagLoop loopFuel commentToken acc ctx

/-- `ParseContext.parseExplicitList`: returns (children or `undefined`, the
delimiter flags, the new context). -/
def parseExplicitList (fuel : Nat) (ctx : ParseContext) :
    Except Fail (Option (List Node) × Nat × ParseContext) :=
  (parserFns fuel).pExList ctx

/-- `ParseContext.parseExplicitChildren`. -/
def parseExplicitChildren (fuel : Nat) (ctx : ParseContext) :
    Except Fail (List Node × ParseContext) :=
  (parserFns fuel).pExChildren ctx

/-- The `forever()` loop of `ParseContext.parseExplicitChildren`. -/
def parseExplicitChildrenLoop (fuel loopFuel : Nat) (commentToken : Option Token)
    (nextNodeFlags : Nat) (acc : List Node) (ctx : ParseContext) :
    Except Fail (List Node × ParseContext) :=
  (parserFns fuel).pExLoop loopFuel commentToken nextNodeFlags acc ctx

/-- `ParseContext.parseImplicitList`. -/
def parseImplicitList (fuel : Nat) (preComment : Option Token) (ctx : ParseContext) :
    Except Fail (List Node × ParseContext) :=
  (parserFns fuel).pImList preComment ctx

/-- The `forever()` loop of `ParseContext.parseImplicitList`. -/
def parseImplicitListLoop (fuel loopFuel : Nat) (commentToken : Option Token) (acc : List Node)
    (ctx : ParseContext) : Except Fail (List Node × ParseContext) :=
  (parserFns fuel).pImLoop loopFuel commentToken acc ctx

structure ParseResult where
  node : Node
  errors : List MdError
  source : List Char

def initialFuel (source : List Char) : Nat := 16 * source.length + 64

/-- `parse(source)`.  The `File` root node gets the whole source as its
`rawString` and the top-level explicit children as its children. -/
def parse (source : List Char) : Except Fail ParseResult :=
  let ctx : ParseContext := ⟨source, source, none, []⟩
  match parseExplicitChildren (initialFuel source) ctx with
  | .error e => .error e
  | .ok (children, ctx') =>
    .ok ⟨Node.mk .File 0 [] source 0 [] none none none children [], ctx'.errors, ctx'.source⟩

/-- ECMAScript `String.prototype.slice` on character lists. -/
def jsSlice (s : List Char) (a b : Int) : List Char :=
  let len : Int := s.length
  let start := if a < 0 then max (len + a) 0 else min a len
  let stop := if b < 0 then max (len + b) 0 else min b len
  if start < stop then (s.drop start.toNat).take (stop - start).toNat else []

/-- The body of `ParseResult.fancyErrors` for one error. -/
def renderErr (source : List Char) (err : MdError) : List Char :=
  let amt : Int := 20
  let off : Int := err.offset
  let before := sanitize (jsSlice source (off - amt) off)
  let problem := sanitize (jsSlice source off (off + 1))
  let after := sanitize (jsSlice source (off + 1) (off + amt))
  let pad := List.replicate before.length ' '
  "ERROR: ".toList ++ err.message ++ "\n |\n | ".toList ++ before ++ problem ++ after
    ++ "\n | ".toList ++ pad ++ "^\n |\n".toList

def fancyErrors (r : ParseResult) : List (List Char) :=
  r.errors.map (renderErr r.source)

/-- Errors produced by `parse` (empty list also on the embedding-artifact
failure values, which the theorems exclude separately where it matters). -/
def parseErrors (s : List Char) : List MdError :=
  match parse s with
  | .ok r => r.errors
  | .error _ => []

/-- Top-level children produced by `parse`. -/
def parseChildren (s : List Char) : List Node :=
  match parse s with
  | .ok r => r.node.children
  | .error _ => []

/-- `parse` followed by `ParseResult.fancyErrors`. -/
def fancyErrorsOf (s : List Char) : List (List Char) :=
  match parse s with
  | .ok r => fancyErrors r
  | .error _ => []

/-- Modelled from the spec (sections 4.4 and 6, and claim C7): the renderer the
claim describes, with a context line of the 20 characters before the offset,
the character at the offset and the 20 characters after it.  This definition
follows the spec words and is compared against the implementation `renderErr`. -/
def renderErrSpec (source : List Char) (err : MdError) : List Char :=
  let before := sanitize ((source.drop (err.offset - 20)).take 20)
  let problem := sanitize ((source.drop err.offset).take 1)
  let after := sanitize ((source.drop (err.offset + 1)).take 20)
  let pad := List.replicate before.length ' '
  "ERROR: ".toList ++ err.message ++ "\n |\n | ".toList ++ before ++ problem ++ after
    ++ "\n | ".toList ++ pad ++ "^\n |\n".toList

mutual

/-- All three back-references of the node are `undefined` (`none`), recursively
through children and tags. -/
def nodeOk : Node → Bool
  | .mk _ _ _ _ _ _ next prev parent children tags =>
    next.isNone && prev.isNone && parent.isNone && listOk children && listOk tags

/-- `nodeOk` for every node of the list. -/
def listOk : List Node → Bool
  | [] => true
  | n :: rest => nodeOk n && listOk rest

end

/-- `nodeOk` of the root of a parse result (vacuously true on the embedding
fuel artifacts). -/
def resultOk : Except Fail ParseResult → Bool
  | .ok r => nodeOk r.node
  | .error _ => true

/-- The parser invariant behind claim C10: every node returned by any of the
parser productions at the given fuel has all three back-references `none`,
recursively. -/
def fnsOk (f : Nat) : Prop :=
  (∀ pre ctx res, parseNode f pre ctx = .ok res → ∀ n, res.1 = some n → nodeOk n = true) ∧
  (∀ pre ctx res, parseTagList f pre ctx = .ok res → listOk res.1 = true) ∧
  (∀ lf pre acc ctx res, parseTagListLoop f lf pre acc ctx = .ok res → listOk acc = true →
    listOk res.1 = true) ∧
  (∀ ctx res, parseExplicitList f ctx = .ok res → ∀ l, res.1 = some l → listOk l = true) ∧
  (∀ ctx res, parseExplicitChildren f ctx = .ok res → listOk res.1 = true) ∧
  (∀ lf cm nf acc ctx res, parseExplicitChildrenLoop f lf cm nf acc ctx = .ok res →
    listOk acc = true → listOk res.1 = true) ∧
  (∀ pre ctx res, parseImplicitList f pre ctx = .ok res → listOk res.1 = true) ∧
  (∀ lf pre acc ctx res, parseImplicitListLoop f lf pre acc ctx = .ok res →
    listOk acc = true → listOk res.1 = true)

/-- Source text of the C7 counterexample: 19 letters and a space, an opening
brace at offset 20, and 25 letters after it (the unterminated list gives an
error recorded at offset 20). -/
def c7src : List Char := "aaaaaaaaaaaaaaaaaaa \x7bbbbbbbbbbbbbbbbbbbbbbbbbb".toList

/-- Witness state for C4: a context about to parse the source consisting only
of an opening brace. -/
def c4ctx0 : ParseContext := ⟨['\x7b'], ['\x7b'], none, []⟩

def c4tok : Token := ⟨TokenKind.Reserved, ['\x7b'], ['\x7b'], []⟩

def c4ctx1 : ParseContext := ⟨['\x7b'], [], some c4tok, []⟩

/-- Witness state for C5: a context about to parse the one-label source `b`. -/
def c5ctx0 : ParseContext := ⟨['b'], ['b'], none, []⟩

def c5tok : Token := ⟨TokenKind.Identifier, ['b'], ['b'], []⟩

def c5ctx1 : ParseContext := ⟨['b'], [], some c5tok, []⟩

def c5node : Node := Node.mk .Main 0 ['b'] ['b'] 0 [] none none none [] []

end Metadesk



namespace Metadesk

set_option maxRecDepth 100000

theorem parserFns_zero : parserFns 0 = outOfFuelFns := rfl

theorem parserFns_succ (f : Nat) : parserFns (f + 1) = stepFns (parserFns f) := rfl

theorem parseNode_zero (pre : Option Token) (ctx : ParseContext) :
    parseNode 0 pre ctx = .error .outOfFuel := rfl

theorem parseNode_succ (f : Nat) (pre : Option Token) (ctx : ParseContext) :
    parseNode (f + 1) pre ctx = pNodeStep (parserFns f) pre ctx := rfl

theorem parseTagList_zero (pre : Option Token) (ctx : ParseContext) :
    parseTagList 0 pre ctx = .error .outOfFuel := rfl

theorem parseTagList_succ (f : Nat) (pre : Option Token) (ctx : ParseContext) :
    parseTagList (f + 1) pre ctx = pTagListStep (parserFns f) pre ctx := rfl

theorem parseTagListLoop_zero (lf : Nat) (pre : Option Token) (acc : List Node)
    (ctx : ParseContext) : parseTagListLoop 0 lf pre acc ctx = .error .outOfFuel := rfl

theorem parseTagListLoop_succ (f lf : Nat) (pre : Option Token) (acc : List Node)
    (ctx : ParseContext) :
    parseTagListLoop (f + 1) lf pre acc ctx = pTagLoopStep (parserFns f) lf pre acc ctx := rfl

theorem parseExplicitList_zero (ctx : ParseContext) :
    parseExplicitList 0 ctx = .error .outOfFuel := rfl

theorem parseExplicitList_succ (f : Nat) (ctx : ParseContext) :
    parseExplicitList (f + 1) ctx = pExListStep (parserFns f) ctx := rfl

theorem parseExplicitChildren_zero (ctx : ParseContext) :
    parseExplicitChildren 0 ctx = .error .outOfFuel := rfl

theorem parseExplicitChildren_succ (f : Nat) (ctx : ParseContext) :
    parseExplicitChildren (f + 1) ctx = pExChildrenStep (parserFns f) ctx := rfl

theorem parseExplicitChildrenLoop_zero (lf : Nat) (cm : Option Token) (nf : Nat)
    (acc : List Node) (ctx : ParseContext) :
    parseExplicitChildrenLoop 0 lf cm nf acc ctx = .error .outOfFuel := rfl

theorem parseExplicitChildrenLoop_succ (f lf : Nat) (cm : Option Token) (nf : Nat)
    (acc : List Node) (ctx : ParseContext) :
    parseExplicitChildrenLoop (f + 1) lf cm nf acc ctx =
      pExLoopStep (parserFns f) lf cm nf acc ctx := rfl

theorem parseImplicitList_zero (pre : Option Token) (ctx : ParseContext) :
    parseImplicitList 0 pre ctx = .error .outOfFuel := rfl

theorem parseImplicitList_succ (f : Nat) (pre : Option Token) (ctx : ParseContext) :
    parseImplicitList (f + 1) pre ctx = pImListStep (parserFns f) pre ctx := rfl

theorem parseImplicitListLoop_zero (lf : Nat) (pre : Option Token) (acc : List Node)
    (ctx : ParseContext) : parseImplicitListLoop 0 lf pre acc ctx = .error .outOfFuel := rfl

theorem parseImplicitListLoop_succ (f lf : Nat) (pre : Option Token) (acc : List Node)
    (ctx : ParseContext) :
    parseImplicitListLoop (f + 1) lf pre acc ctx = pImLoopStep (parserFns f) lf pre acc ctx := rfl

theorem pNode_eq (f : Nat) : (parserFns f).pNode = parseNode f := rfl

theorem pTagList_eq (f : Nat) : (parserFns f).pTagList = parseTagList f := rfl

theorem pTagLoop_eq (f : Nat) : (parserFns f).pTagLoop = parseTagListLoop f := rfl

theorem pExList_eq (f : Nat) : (parserFns f).pExList = parseExplicitList f := rfl

theorem pExChildren_eq (f : Nat) : (parserFns f).pExChildren = parseExplicitChildren f := rfl

theorem pExLoop_eq (f : Nat) : (parserFns f).pExLoop = parseExplicitChildrenLoop f := rfl

theorem pImList_eq (f : Nat) : (parserFns f).pImList = parseImplicitList f := rfl

theorem pImLoop_eq (f : Nat) : (parserFns f).pImLoop = parseImplicitListLoop f := rfl

/-- Claim C1: the claim asserts that tokenization partitions every input and
that every token from a non-empty input has a raw string of length at least
one.  The code violates this: on an input starting with a slash that is not
followed by another slash or a star (the slash case of the tokenizer falls
through without lexing a symbol), `getToken` returns an `Invalid`-kind token
whose `rawString` is empty and whose `remaining` is the whole input, so the
driver loop that advances by `rawString.length` makes no progress and the
concatenation of raw strings never reconstructs the input. -/
theorem C1_tokenizer_zero_length_token :
    getToken ['/'] = some ⟨TokenKind.Invalid, [], [], ['/']⟩ ∧
    getToken ['/', 'x'] = some ⟨TokenKind.Invalid, [], [], ['/', 'x']⟩ := by
  exact ⟨rfl, rfl⟩

/-- Claim C3 counterexample: the claim asserts that parsing `[)` (and `(])`)
records exactly one mismatched-delimiter error; in fact the parser treats any
parenthesis/bracket mix as compatible and records no error at all. -/
theorem C3_counterexample :
    (parseErrors "[)".toList).length ≠ 1 ∧ (parseErrors "(]".toList).length ≠ 1 := by
  decide!

/-- Claim C3 (amended): parsing `[)` or `(]` yields a single top-level node
with empty string and zero children and an empty error list, because `(` and
`[` are interchangeable with `)` and `]`. -/
theorem C3_mixed_delimiters_no_error :
    (parseChildren "[)".toList).map (fun n => (n.string, n.children.length)) = [([], 0)] ∧
    parseErrors "[)".toList = [] ∧
    (parseChildren "(]".toList).map (fun n => (n.string, n.children.length)) = [([], 0)] ∧
    parseErrors "(]".toList = [] := by
  decide!

/-- Claim C6: the claim (and the grammar comment in the source) says that after
a named node's colon at most one newline of separation is allowed, so in
`a:⏎⏎b` the label `b` must not become a child of `a`.  The code violates this:
`parseNode` consumes all whitespace unconditionally (not only after a tag
list), so the second newline is skipped and `b` is parsed as the child of `a`. -/
theorem C6_two_newlines_still_child :
    (parseChildren "a:\n\nb".toList).map (fun n => (n.string, n.children.map Node.string)) =
      [(['a'], [['b']])] := by
  decide!

/-- Claim C8: parsing `(a b, c; d)` yields one top-level node with children
`a`, `b`, `c`, `d` in order, where within the separator-adjacency flag group
`a` carries nothing, `b` carries IsBeforeComma, `c` carries IsAfterComma and
IsBeforeSemicolon, and `d` carries IsAfterSemicolon. -/
theorem C8_separator_adjacency_flags :
    (parseChildren "(a b, c; d)".toList).map (fun n => n.children.map fun c =>
        (c.string, Nat.land c.flags NodeFlags.MaskSeparators)) =
      [[(['a'], 0), (['b'], NodeFlags.IsBeforeComma),
        (['c'], NodeFlags.IsAfterComma ||| NodeFlags.IsBeforeSemicolon),
        (['d'], NodeFlags.IsAfterSemicolon)]] := by
  decide!

/-- Claim C9: an empty error list does not imply the whole input was parsed:
on `a ) b` the parser returns a single top-level child `a` (covering only the
input before the unmatched closer) and an empty error list, silently ignoring
the closer and everything after it. -/
theorem C9_top_level_closer_ignored :
    parseErrors "a ) b".toList = [] ∧
    (parseChildren "a ) b".toList).map (fun n => (n.string, n.rawString, n.children.length)) =
      [(['a'], ['a'], 0)] := by
  decide!

theorem getToken_cons_newline (rest : List Char) :
    getToken ('\n' :: rest) = some ⟨TokenKind.Newline, ['\n'], ['\n'], rest⟩ := rfl

theorem consumeAllAux_newlines (fuel : Nat) :
    ∀ (n : Nat) (ctx : ParseContext) (acc : List Token),
    ctx.remaining = List.replicate (fuel + n) '\n' →
    consumeAllAux WhitespaceAll anyTok fuel ctx acc = .error .loopRanTooLong := by
  induction fuel with
  | zero => intro n ctx acc _; rfl
  | succ f ih =>
    intro n ctx acc h
    have hr : ctx.remaining = '\n' :: List.replicate (f + n) '\n' := by
      rw [h, show f + 1 + n = (f + n) + 1 by omega, List.replicate_succ]
    have hkind : Nat.land TokenKind.Newline WhitespaceAll ≠ 0 := by decide
    have hcond : Nat.land (⟨TokenKind.Newline, ['\n'], ['\n'],
        List.replicate (f + n) '\n'⟩ : Token).kind WhitespaceAll ≠ 0 ∧
        anyTok ⟨TokenKind.Newline, ['\n'], ['\n'], List.replicate (f + n) '\n'⟩ :=
      ⟨hkind, rfl⟩
    show (match ctx.consume WhitespaceAll anyTok with
      | (some t, ctx') => consumeAllAux WhitespaceAll anyTok f ctx' (acc ++ [t])
      | (none, ctx') => .ok (acc, ctx')) = .error .loopRanTooLong
    rw [ParseContext.consume, ParseContext.check, hr, getToken_cons_newline]
    simp only [if_pos hcond]
    exact ih n _ _ rfl

/-- Claim C2: the claim asserts that parse always terminates normally and that
the iteration cap in the repetition helpers is never reached for any user
input.  The code violates this: `forever()` throws after 10000 iterations and
`consumeAll` uses one iteration per whitespace-class token, so a source of
10000 newlines makes `parse` throw (modelled as the `loopRanTooLong` failure
value) instead of returning a result. -/
theorem C2_parse_loop_cap_reached :
    parse (List.replicate 10000 '\n') = .error .loopRanTooLong := by
  have hca : consumeAll WhitespaceAll anyTok
      ⟨List.replicate 10000 '\n', List.replicate 10000 '\n', none, []⟩ =
      .error .loopRanTooLong := by
    rw [consumeAll, show FOREVER_CAP = 10000 from rfl]
    exact consumeAllAux_newlines 10000 0 _ _ (by rw [Nat.add_zero])
  have hws : consumeWhitespaceAll
      ⟨List.replicate 10000 '\n', List.replicate 10000 '\n', none, []⟩ =
      .error .loopRanTooLong := by
    simp only [consumeWhitespaceAll, hca]
  have hfuel : initialFuel (List.replicate 10000 '\n') = 160063 + 1 := by
    rw [initialFuel, List.length_replicate]
  simp only [parse, hfuel, parseExplicitChildren_succ, pExChildrenStep, hws]

/-- Claim C4: whenever an explicit list's opener is consumed and, after its
children, no closer can be consumed (in particular when input ends first),
`parseExplicitList` records "List was not terminated" at the opener's offset
and yields no children at all (the `undefined` result with zero flags), so the
caller stores an empty children array; the closed conjuncts check on
`(a) \x7bb` that the broken list's node ends with empty children, the error is
at the opener's offset 4, and the earlier sibling list `(a)` is unaffected. -/
theorem C4_unterminated_explicit_list :
    (∀ (f : Nat) (ctx ctx1 ctx2 : ParseContext) (opener : Token) (children : List Node),
        ctx.consume TokenKind.Reserved isOpenerTok = (some opener, ctx1) →
        parseExplicitChildren f ctx1 = .ok (children, ctx2) →
        ctx2.check TokenKind.Reserved isCloserTok = none →
        parseExplicitList (f + 1) ctx =
          .ok (none, 0, ctx2.pushError unterminatedListMsg ctx.offset)) ∧
    (parseChildren "(a) \x7bb".toList).map (fun n => (n.string, n.children.map Node.string)) =
        [([], [['a']]), ([], [])] ∧
    parseErrors "(a) \x7bb".toList = [⟨unterminatedListMsg, 4⟩] := by
  refine ⟨?_, by decide!, by decide!⟩
  intro f ctx ctx1 ctx2 opener children h1 h2 h3
  have h3' : ctx2.consume TokenKind.Reserved isCloserTok = (none, ctx2) := by
    rw [ParseContext.consume, h3]
  rw [parseExplicitList_succ, pExListStep, h1]
  dsimp only
  rw [pExChildren_eq, h2]
  dsimp only
  rw [h3']

/-- Witness for claim C4 at the concrete one-character source consisting of an
opening brace. -/
theorem C4_unterminated_explicit_list_witness :
    c4ctx0.consume TokenKind.Reserved isOpenerTok = (some c4tok, c4ctx1) ∧
    parseExplicitChildren 1 c4ctx1 = .ok ([], c4ctx1) ∧
    c4ctx1.check TokenKind.Reserved isCloserTok = none ∧
    parseExplicitList 2 c4ctx0 =
      .ok (none, 0, c4ctx1.pushError unterminatedListMsg c4ctx0.offset) :=
  ⟨by rfl, by rfl, by rfl,
   C4_unterminated_explicit_list.1 1 c4ctx0 c4ctx1 c4ctx1 c4tok [] (by rfl) (by rfl) (by rfl)⟩

theorem check_nil (ctx : ParseContext) (kind : Nat) (cond : Token → Bool)
    (h : ctx.remaining = []) : ctx.check kind cond = none := by
  rw [ParseContext.check, h]; rfl

theorem consume_nil (ctx : ParseContext) (kind : Nat) (cond : Token → Bool)
    (h : ctx.remaining = []) : ctx.consume kind cond = (none, ctx) := by
  rw [ParseContext.consume, check_nil ctx kind cond h]

theorem consumeAllAux_nil (kind : Nat) (cond : Token → Bool) (k : Nat) (ctx : ParseContext)
    (acc : List Token) (h : ctx.remaining = []) :
    consumeAllAux kind cond (k + 1) ctx acc = .ok (acc, ctx) := by
  simp only [consumeAllAux, consume_nil ctx kind cond h]

theorem consumeAll_nil (kind : Nat) (cond : Token → Bool) (ctx : ParseContext)
    (h : ctx.remaining = []) : consumeAll kind cond ctx = .ok ([], ctx) := by
  rw [consumeAll, show FOREVER_CAP = 9999 + 1 from rfl]
  exact consumeAllAux_nil kind cond 9999 ctx [] h

theorem consumeWhitespaceLine_nil (ctx : ParseContext) (h : ctx.remaining = []) :
    consumeWhitespaceLine ctx = .ok (none, ctx) := by
  simp only [consumeWhitespaceLine, consumeAll_nil WhitespaceLine anyTok ctx h]; rfl

theorem consumeWhitespaceAll_nil (ctx : ParseContext) (h : ctx.remaining = []) :
    consumeWhitespaceAll ctx = .ok (none, ctx) := by
  simp only [consumeWhitespaceAll, consumeAll_nil WhitespaceAll anyTok ctx h]; rfl

theorem parseNode_nil (g : Nat) (pre : Option Token) (ctx : ParseContext)
    (h : ctx.remaining = []) :
    parseNode (g + 3) pre ctx =
      .ok (none, ctx.pushError (labelErrMsg (sanitize endOfFileStr)) ctx.offset) := by
  have htag : parseTagList (g + 2) pre ctx = .ok ([], ctx) := by
    rw [parseTagList_succ, pTagListStep, pTagLoop_eq, parseTagListLoop_succ, pTagLoopStep]
    rw [if_neg (by decide : ¬(FOREVER_CAP = 0)), consume_nil ctx TokenKind.Reserved isAtTok h]
  rw [parseNode_succ, pNodeStep, pTagList_eq]
  rw [htag]
  dsimp only
  rw [consumeWhitespaceAll_nil ctx h]
  dsimp only
  rw [check_nil ctx TokenKind.Reserved isOpenerTok h]
  dsimp only
  rw [consume_nil ctx LabelKinds anyTok h]
  dsimp only
  rw [check_nil ctx AllTokens anyTok h]
  rfl

theorem pushError_offset (ctx : ParseContext) (m : List Char) (o : Nat) :
    (ctx.pushError m o).offset = ctx.offset := rfl

/-- Claim C5 (amended): for an implicit list whose first node is immediately
followed by end-of-input, the parsed node is kept as a child, but the loop does
not terminate cleanly: the next iteration's `parseNode` fails at end-of-input
and two errors are recorded ("expected a valid node label, but got \"end of
file\" instead" and "expected a node"), both at the end-of-input offset. -/
theorem C5_implicit_list_at_eoi (g : Nat) (pre : Option Token) (ctx ctx1 : ParseContext)
    (n : Node) (h1 : parseNode (g + 4) pre ctx = .ok (some n, ctx1))
    (h2 : ctx1.remaining = []) :
    parseImplicitList (g + 6) pre ctx =
      .ok ([n], (ctx1.pushError (labelErrMsg (sanitize endOfFileStr)) ctx1.offset).pushError
        expectedNodeMsg ctx1.offset) := by
  rw [show g + 6 = (g + 5) + 1 from rfl, parseImplicitList_succ, pImListStep, pImLoop_eq]
  rw [show g + 5 = (g + 4) + 1 from rfl, parseImplicitListLoop_succ, pImLoopStep]
  rw [if_neg (by decide : ¬(FOREVER_CAP = 0))]
  rw [pNode_eq, h1]
  dsimp only
  rw [consumeWhitespaceLine_nil ctx1 h2]
  dsimp only
  rw [check_nil ctx1 TokenKind.Reserved isSeparatorTok h2, check_nil ctx1 TokenKind.Newline anyTok h2]
  rw [if_neg (by simp : ¬((none : Option Token).isSome = true ∨ (none : Option Token).isSome = true))]
  rw [pImLoop_eq]
  rw [show g + 4 = (g + 3) + 1 from rfl, parseImplicitListLoop_succ, pImLoopStep]
  rw [if_neg (by decide : ¬(FOREVER_CAP - 1 = 0))]
  rw [pNode_eq, parseNode_nil g none ctx1 h2]
  dsimp only
  rfl

/-- Claim C5 counterexample: the claim asserts that an implicit list whose
final node is immediately followed by end-of-input terminates with no error
recorded; in fact parsing `a: b` records errors. -/
theorem C5_counterexample : parseErrors "a: b".toList ≠ [] := by decide!

/-- Witness for claim C5 at the concrete one-label source `b`. -/
theorem C5_implicit_list_at_eoi_witness :
    parseNode 10 none c5ctx0 = .ok (some c5node, c5ctx1) ∧
    c5ctx1.remaining = [] ∧
    parseImplicitList 12 none c5ctx0 =
      .ok ([c5node], (c5ctx1.pushError (labelErrMsg (sanitize endOfFileStr)) c5ctx1.offset).pushError
        expectedNodeMsg c5ctx1.offset) :=
  ⟨by rfl, rfl, C5_implicit_list_at_eoi 6 none c5ctx0 c5ctx1 c5node (by rfl) rfl⟩

theorem jsSlice_coe (s : List Char) (a b : Nat) (hab : a ≤ b) (hb : b ≤ s.length) :
    jsSlice s a b = (s.drop a).take (b - a) := by
  unfold jsSlice
  have h1 : ¬((a : Int) < 0) := by omega
  have h2 : ¬((b : Int) < 0) := by omega
  have hmina : min (a : Int) (s.length : Int) = (a : Int) := min_eq_left (by omega)
  have hminb : min (b : Int) (s.length : Int) = (b : Int) := min_eq_left (by omega)
  dsimp only
  rw [if_neg h1, if_neg h2, hmina, hminb]
  by_cases hlt : (a : Int) < (b : Int)
  · rw [if_pos hlt]
    have e1 : ((a : Int)).toNat = a := Int.toNat_natCast a
    have e2 : ((b : Int) - (a : Int)).toNat = b - a := by omega
    rw [e1, e2]
  · rw [if_neg hlt]
    have : b - a = 0 := by omega
    rw [this, List.take_zero]

/-- Claim C7 (amended): for a recorded error with at least 20 characters
before the offset and 20 after it, the reporter renders exactly
`ERROR: <message>`, a context line of the 20 sanitized characters before the
offset, the character at the offset and the 19 characters after it, and a
caret line padded by the length of the sanitized before-window. -/
theorem C7_render_window (source msg : List Char) (off : Nat)
    (h1 : 20 ≤ off) (h2 : off + 20 ≤ source.length) :
    renderErr source ⟨msg, off⟩ =
      "ERROR: ".toList ++ msg ++ "\n |\n | ".toList
        ++ sanitize ((source.drop (off - 20)).take 20)
        ++ sanitize ((source.drop off).take 1)
        ++ sanitize ((source.drop (off + 1)).take 19)
        ++ "\n | ".toList
        ++ List.replicate (sanitize ((source.drop (off - 20)).take 20)).length ' '
        ++ "^\n |\n".toList := by
  unfold renderErr
  dsimp only
  have e1 : ((off : Int) - 20) = ((off - 20 : Nat) : Int) := by omega
  have e2 : ((off : Int) + 1) = ((off + 1 : Nat) : Int) := by omega
  have e3 : ((off : Int) + 20) = ((off + 20 : Nat) : Int) := by omega
  rw [e1, e2, e3]
  rw [jsSlice_coe source (off - 20) off (by omega) (by omega),
    jsSlice_coe source off (off + 1) (by omega) (by omega),
    jsSlice_coe source (off + 1) (off + 20) (by omega) (by omega)]
  rw [show off - (off - 20) = 20 by omega, show off + 1 - off = 1 by omega,
    show off + 20 - (off + 1) = 19 by omega]

/-- Claim C7 counterexample: on a source with an unterminated-list error at
offset 20 and 25 characters after the offset, the rendering produced by
`fancyErrors` differs from the spec-modelled rendering with a 20-character
after-window (`renderErrSpec`): the code renders only 19 characters after the
offset. -/
theorem C7_counterexample :
    parseErrors c7src = [⟨unterminatedListMsg, 20⟩] ∧
    fancyErrorsOf c7src ≠ [renderErrSpec c7src ⟨unterminatedListMsg, 20⟩] := by
  decide!

/-- Witness for claim C7 at the concrete source `c7src`, offset 20. -/
theorem C7_render_window_witness :
    20 ≤ 20 ∧ 20 + 20 ≤ c7src.length ∧
    renderErr c7src ⟨['m'], 20⟩ =
      "ERROR: ".toList ++ ['m'] ++ "\n |\n | ".toList
        ++ sanitize ((c7src.drop (20 - 20)).take 20)
        ++ sanitize ((c7src.drop 20).take 1)
        ++ sanitize ((c7src.drop (20 + 1)).take 19)
        ++ "\n | ".toList
        ++ List.replicate (sanitize ((c7src.drop (20 - 20)).take 20)).length ' '
        ++ "^\n |\n".toList :=
  ⟨le_refl 20, by decide!, C7_render_window c7src ['m'] 20 (le_refl 20) (by decide!)⟩

theorem listOk_append (l1 l2 : List Node) : listOk (l1 ++ l2) = (listOk l1 && listOk l2) := by
  induction l1 with
  | nil => simp [listOk]
  | cons n rest ih => simp [listOk, ih, Bool.and_assoc]

theorem nodeOk_mk (k : NodeKind) (f : Nat) (s r : List Char) (o : Nat) (c : List Char)
    (ch t : List Node) :
    nodeOk (Node.mk k f s r o c none none none ch t) = (listOk ch && listOk t) := by
  simp [nodeOk]

theorem nodeOk_withFlags (n : Node) (f : Nat) : nodeOk (n.withFlags f) = nodeOk n := by
  cases n; simp [Node.withFlags, nodeOk]

theorem listOk_nil : listOk [] = true := rfl

/-- Every parser production, at every fuel, returns only nodes whose
back-references are all `none`. -/
theorem fnsOk_all (f : Nat) : fnsOk f := by
  induction f with
  | zero =>
    refine ⟨?_, ?_, ?_, ?_, ?_, ?_, ?_, ?_⟩
    · intro pre ctx res h; rw [parseNode_zero] at h; simp at h
    · intro pre ctx res h; rw [parseTagList_zero] at h; simp at h
    · intro lf pre acc ctx res h; rw [parseTagListLoop_zero] at h; simp at h
    · intro ctx res h; rw [parseExplicitList_zero] at h; simp at h
    · intro ctx res h; rw [parseExplicitChildren_zero] at h; simp at h
    · intro lf cm nf acc ctx res h; rw [parseExplicitChildrenLoop_zero] at h; simp at h
    · intro pre ctx res h; rw [parseImplicitList_zero] at h; simp at h
    · intro lf pre acc ctx res h; rw [parseImplicitListLoop_zero] at h; simp at h
  | succ f ih =>
    obtain ⟨ihN, ihTL, ihTLo, ihEL, ihEC, ihELo, ihIL, ihILo⟩ := ih
    refine ⟨?_, ?_, ?_, ?_, ?_, ?_, ?_, ?_⟩
    · -- parseNode
      intro pre ctx res h n hres
      simp only [parseNode_succ, pNodeStep, pTagList_eq, pExList_eq, pImList_eq] at h
      split at h
      · simp at h
      · rename_i tags ctx1 heqTL
        split at h
        · simp at h
        · rename_i wsc ctx2 heqWS
          split at h
          · -- anonymous branch
            split at h
            · simp at h
            · rename_i chOpt flags ctx3 heqEL
              simp only [Except.ok.injEq] at h
              subst h
              simp only [Option.some.injEq] at hres
              subst hres
              rw [nodeOk_mk]
              have hch : listOk (chOpt.getD []) = true := by
                cases chOpt with
                | none => exact listOk_nil
                | some l => exact ihEL ctx2 _ heqEL l rfl
              have htg : listOk tags = true := ihTL pre ctx _ heqTL
              simp [hch, htg]
          · -- named branch
            split at h
            · rename_i label ctx3 heqLab
              split at h
              · rename_i colonTok ctx4 heqColon
                split at h
                · simp at h
                · rename_i cmt ctx5 heqWSN
                  split at h
                  · -- explicit children after colon
                    split at h
                    · simp at h
                    · rename_i chOpt flags ctx6 heqEL
                      simp only [Except.ok.injEq] at h
                      subst h
                      simp only [Option.some.injEq] at hres
                      subst hres
                      rw [nodeOk_mk]
                      have hch : listOk (chOpt.getD []) = true := by
                        cases chOpt with
                        | none => exact listOk_nil
                        | some l => exact ihEL ctx5 _ heqEL l rfl
                      have htg : listOk tags = true := ihTL pre ctx _ heqTL
                      simp [hch, htg]
                  · -- implicit children after colon
                    split at h
                    · simp at h
                    · rename_i children ctx6 heqIL
                      simp only [Except.ok.injEq] at h
                      subst h
                      simp only [Option.some.injEq] at hres
                      subst hres
                      rw [nodeOk_mk]
                      have hch : listOk children = true := ihIL cmt ctx5 _ heqIL
                      have htg : listOk tags = true := ihTL pre ctx _ heqTL
                      simp [hch, htg]
              · -- no colon
                rename_i ctx4 heqColon
                simp only [Except.ok.injEq] at h
                subst h
                simp only [Option.some.injEq] at hres
                subst hres
                rw [nodeOk_mk]
                have htg : listOk tags = true := ihTL pre ctx _ heqTL
                simp [listOk_nil, htg]
            · -- no label: error recorded, no node
              rename_i ctx3 heqLab
              simp only [Except.ok.injEq] at h
              subst h
              simp at hres
    · -- parseTagList
      intro pre ctx res h
      rw [parseTagList_succ, pTagListStep, pTagLoop_eq] at h
      exact ihTLo _ _ _ _ _ h listOk_nil
    · -- parseTagListLoop
      intro lf pre acc ctx res h hacc
      rw [parseTagListLoop_succ, pTagLoopStep] at h
      split at h
      · simp at h
      · simp only [pExList_eq, pTagLoop_eq] at h
        split at h
        · rename_i ctx1 heqAt
          simp only [Except.ok.injEq] at h
          subst h
          exact hacc
        · rename_i atTok ctx1 heqAt
          split at h
          · rename_i ctx2 heqLab
            simp only [Except.ok.injEq] at h
            subst h
            exact hacc
          · rename_i label ctx2 heqLab
            split at h
            · simp at h
            · rename_i chOpt flags ctx3 heqEL
              have hch : listOk (chOpt.getD []) = true := by
                cases chOpt with
                | none => exact listOk_nil
                | some l => exact ihEL ctx2 _ heqEL l rfl
              split at h
              · simp at h
              · rename_i nc ctx5 heqWS
                refine ihTLo _ _ _ _ _ h ?_
                rw [listOk_append]
                simp [hacc, listOk, nodeOk_mk, hch, listOk_nil]
    · -- parseExplicitList
      intro ctx res h l hres
      rw [parseExplicitList_succ, pExListStep] at h
      simp only [pExChildren_eq] at h
      split at h
      · rename_i ctx1 heqOp
        simp only [Except.ok.injEq] at h
        subst h
        simp at hres
      · rename_i opener ctx1 heqOp
        split at h
        · simp at h
        · rename_i children ctx2 heqEC
          split at h
          · rename_i ctx3 heqCl
            simp only [Except.ok.injEq] at h
            subst h
            simp at hres
          · rename_i closer ctx3 heqCl
            simp only [Except.ok.injEq] at h
            subst h
            simp only [Option.some.injEq] at hres
            subst hres
            exact ihEC ctx1 _ heqEC
    · -- parseExplicitChildren
      intro ctx res h
      rw [parseExplicitChildren_succ, pExChildrenStep] at h
      simp only [pExLoop_eq] at h
      split at h
      · simp at h
      · rename_i cm ctx1 heqWS
        split at h
        · simp only [Except.ok.injEq] at h
          subst h
          exact listOk_nil
        · exact ihELo _ _ _ _ _ _ h listOk_nil
    · -- parseExplicitChildrenLoop
      intro lf cm nf acc ctx res h hacc
      rw [parseExplicitChildrenLoop_succ, pExLoopStep] at h
      split at h
      · simp at h
      · simp only [pNode_eq, pExLoop_eq] at h
        split at h
        · simp at h
        · rename_i ctx1 heqN
          simp only [Except.ok.injEq] at h
          subst h
          exact hacc
        · rename_i node0 ctx1 heqN
          have hn0 : nodeOk node0 = true := ihN cm ctx _ heqN node0 rfl
          split at h
          · simp at h
          · rename_i wsc2 ctx2 heqWS1
            have hx : nodeOk (match (ctx2.consume TokenKind.Reserved isSeparatorTok).1 with
              | some s =>
                if s.string = [','] then
                  ((node0.withFlags (Nat.lor node0.flags nf)).withFlags
                    ((node0.withFlags (Nat.lor node0.flags nf)).flags ||| NodeFlags.IsBeforeComma),
                   NodeFlags.IsAfterComma)
                else if s.string = [';'] then
                  ((node0.withFlags (Nat.lor node0.flags nf)).withFlags
                    ((node0.withFlags (Nat.lor node0.flags nf)).flags ||| NodeFlags.IsBeforeSemicolon),
                   NodeFlags.IsAfterSemicolon)
                else (node0.withFlags (Nat.lor node0.flags nf), 0)
              | none => (node0.withFlags (Nat.lor node0.flags nf), 0)).1 = true := by
              cases (ctx2.consume TokenKind.Reserved isSeparatorTok).1 with
              | none => simpa [nodeOk_withFlags] using hn0
              | some s =>
                by_cases h1 : s.string = [',']
                · simpa [h1, nodeOk_withFlags] using hn0
                · by_cases h2 : s.string = [';'] <;>
                    simp [h1, h2, nodeOk_withFlags, hn0]
            split at h
            · simp at h
            · rename_i nc ctx4 heqWS2
              split at h
              · simp only [Except.ok.injEq] at h
                subst h
                simp only [listOk_append]
                simp [hacc, listOk, hx, listOk_nil]
              · refine ihELo _ _ _ _ _ _ h ?_
                simp only [listOk_append]
                simp [hacc, listOk, hx, listOk_nil]
    · -- parseImplicitList
      intro pre ctx res h
      rw [parseImplicitList_succ, pImListStep, pImLoop_eq] at h
      exact ihILo _ _ _ _ _ h listOk_nil
    · -- parseImplicitListLoop
      intro lf pre acc ctx res h hacc
      rw [parseImplicitListLoop_succ, pImLoopStep] at h
      split at h
      · simp at h
      · simp only [pNode_eq, pImLoop_eq] at h
        split at h
        · simp at h
        · rename_i ctx1 heqN
          simp only [Except.ok.injEq] at h
          subst h
          exact hacc
        · rename_i node ctx1 heqN
          have hn0 : nodeOk node = true := ihN pre ctx _ heqN node rfl
          split at h
          · simp at h
          · rename_i nc ctx2 heqWS
            split at h
            · simp only [Except.ok.injEq] at h
              subst h
              simp only [listOk_append]
              simp [hacc, listOk, hn0, listOk_nil]
            · refine ihILo _ _ _ _ _ h ?_
              simp only [listOk_append]
              simp [hacc, listOk, hn0, listOk_nil]

/-- Claim C10: in every tree returned by `parse`, the `next`, `prev` and
`parent` fields of every node (the `File` root and, recursively, every `Main`
child and `Tag` node) are `none`: the parser never assigns the
back-references. -/
theorem C10_no_back_references : ∀ source : List Char, resultOk (parse source) = true := by
  intro source
  simp only [parse]
  cases hec : parseExplicitChildren (initialFuel source) ⟨source, source, none, []⟩ with
  | error e => rfl
  | ok p =>
    obtain ⟨children, ctx⟩ := p
    dsimp only [resultOk]
    rw [nodeOk_mk]
    have hch := (fnsOk_all (initialFuel source)).2.2.2.2.1 _ _ hec
    simp [hch, listOk_nil]

end Metadesk
